import Mathlib

set_option linter.unusedVariables false

/-!
Verification development for the `any_mpsc` crate: a type-erased mpsc
channel (`lib.rs`) and a buffered receiver with a type-keyed spillover
buffer (`buffered_receiver.rs`).

Model: a type-erased value is a pair of a runtime type token and a
payload.  The physical mpsc channel is the FIFO list of in-flight values
(front = next to receive); a receive on an exhausted channel yields the
mode's channel error (the model's rendering of closure / timeout /
emptiness).  The `Dfb` buffer is a map from type token to a FIFO queue.
-/

/-- Runtime type identity token (`core::any::TypeId`). -/
abbrev TypeId := Nat

/-- A type-erased value (`Box<dyn Any>`): its runtime type token plus a payload. -/
structure Val where
  ty : TypeId
  payload : Nat
deriving DecidableEq, Repr

/-- The error enum `AnyRecvError` from `lib.rs`. -/
inductive AnyRecvError where
  | RecvError
  | RecvTimeoutError
  | TryRecvError
  | WrongType (v : Val)
  | BufRecvError (t : TypeId)
  | EmptyBuffer
deriving DecidableEq, Repr

/-- The type-keyed buffer (`dfb::Dfb`): a map from type token to the FIFO
queue of parked values of that type. -/
structure Dfb where
  q : TypeId → List Val

/-- Model of `Dfb::new()`: all queues empty. -/
def Dfb.new : Dfb := ⟨fun _ => []⟩

/-- Model of `Dfb::insert_dyn`: append the value at the back of its own type's queue. -/
def Dfb.insert_dyn (b : Dfb) (v : Val) : Dfb :=
  ⟨Function.update b.q v.ty (b.q v.ty ++ [v])⟩

/-- Model of `Dfb::remove::<T>()`: pop the front of T's queue if non-empty. -/
def Dfb.remove (b : Dfb) (t : TypeId) : Option (Val × Dfb) :=
  match b.q t with
  | [] => none
  | v :: rest => some (v, ⟨Function.update b.q t rest⟩)

/-- Pulling one value from the physical channel with a given wait policy:
pops the front in-flight value; an exhausted channel yields that policy's
channel error (`RecvError` / `RecvTimeoutError` / `TryRecvError`). -/
def chanPull (rx : List Val) (eEmpty : AnyRecvError) :
    Except AnyRecvError (Val × List Val) :=
  match rx with
  | [] => .error eEmpty
  | v :: rest => .ok (v, rest)

/-- Model of `AnyReceiver` from `lib.rs`: just the receiving end of the channel. -/
structure AnyReceiver where
  rx : List Val
deriving DecidableEq, Repr

/-- Model of `AnySender::send`: box the value and push it at the back of the channel. -/
def AnySender.send (v : Val) (rx : List Val) : List Val := rx ++ [v]

/-- Shared body of the three unbuffered receives of `AnyReceiver` (and of the
three `_nobuf` bypass variants): pull from the channel, downcast; on a type
mismatch fail with `WrongType` carrying the value, storing nothing. -/
def unbufRecvVia (rx : List Val) (t : TypeId) (eEmpty : AnyRecvError) :
    Except AnyRecvError Val × List Val :=
  match chanPull rx eEmpty with
  | .error e => (.error e, rx)
  | .ok (v, rest) =>
    if v.ty = t then (.ok v, rest) else (.error (.WrongType v), rest)

/-- Model of `AnyReceiver::recv::<T>` (blocking). -/
def AnyReceiver.recv (r : AnyReceiver) (t : TypeId) :
    Except AnyRecvError Val × AnyReceiver :=
  let (res, rx') := unbufRecvVia r.rx t .RecvError
  (res, ⟨rx'⟩)

/-- Model of `AnyReceiver::recv_timeout::<T>`. -/
def AnyReceiver.recv_timeout (r : AnyReceiver) (t : TypeId) (_timeout : Nat) :
    Except AnyRecvError Val × AnyReceiver :=
  let (res, rx') := unbufRecvVia r.rx t .RecvTimeoutError
  (res, ⟨rx'⟩)

/-- Model of `AnyReceiver::try_recv::<T>`. -/
def AnyReceiver.try_recv (r : AnyReceiver) (t : TypeId) :
    Except AnyRecvError Val × AnyReceiver :=
  let (res, rx') := unbufRecvVia r.rx t .TryRecvError
  (res, ⟨rx'⟩)

/-- Model of `BufferedReceiver` from `buffered_receiver.rs`: the receiving end of the
channel plus the type-keyed buffer. -/
structure BufferedReceiver where
  rx : List Val
  buf : Dfb

/-- Model of `buffered_channel()`: fresh receiver, empty channel, empty buffer. -/
def buffered_channel : BufferedReceiver := ⟨[], Dfb.new⟩

/-- The live (buffer-skipping) receive body shared by `recv_live` — and, per
the source, the channel branch of every buffered receive: pull from the
channel, downcast; on mismatch insert the value into the buffer and fail with
`BufRecvError` carrying the value's own runtime type token
(`r.as_ref().type_id()`). -/
def liveRecvVia (r : BufferedReceiver) (t : TypeId) (eEmpty : AnyRecvError) :
    Except AnyRecvError Val × BufferedReceiver :=
  match chanPull r.rx eEmpty with
  | .error e => (.error e, r)
  | .ok (v, rest) =>
    if v.ty = t then (.ok v, { r with rx := rest })
    else (.error (.BufRecvError v.ty), ⟨rest, r.buf.insert_dyn v⟩)

/-- The buffer-first receive body shared by `recv`, `recv_timeout`, `try_recv`
— and, exactly as written in the source, also by `recv_timeout_live` and
`try_recv_live`: take from the buffer if it holds a value of the requested
type, otherwise fall through to the channel. -/
def bufRecvVia (r : BufferedReceiver) (t : TypeId) (eEmpty : AnyRecvError) :
    Except AnyRecvError Val × BufferedReceiver :=
  match r.buf.remove t with
  | some (v, b') => (.ok v, { r with buf := b' })
  | none => liveRecvVia r t eEmpty

/-- Model of `BufferedReceiver::recv::<T>`: buffer first, then blocking channel recv. -/
def BufferedReceiver.recv (r : BufferedReceiver) (t : TypeId) :
    Except AnyRecvError Val × BufferedReceiver :=
  bufRecvVia r t .RecvError

/-- Model of `BufferedReceiver::recv_live::<T>`: channel recv only, no buffer check. -/
def BufferedReceiver.recv_live (r : BufferedReceiver) (t : TypeId) :
    Except AnyRecvError Val × BufferedReceiver :=
  liveRecvVia r t .RecvError

/-- Model of `BufferedReceiver::recv_timeout::<T>`: buffer first, then timeout recv. -/
def BufferedReceiver.recv_timeout (r : BufferedReceiver) (t : TypeId)
    (_timeout : Nat) : Except AnyRecvError Val × BufferedReceiver :=
  bufRecvVia r t .RecvTimeoutError

/-- Model of `BufferedReceiver::recv_timeout_live::<T>`: as written in the source, its
body is identical to `recv_timeout` — it checks the buffer first (its doc
comment claims otherwise). -/
def BufferedReceiver.recv_timeout_live (r : BufferedReceiver) (t : TypeId)
    (_timeout : Nat) : Except AnyRecvError Val × BufferedReceiver :=
  bufRecvVia r t .RecvTimeoutError

/-- Model of `BufferedReceiver::try_recv::<T>`: buffer first, then non-blocking recv. -/
def BufferedReceiver.try_recv (r : BufferedReceiver) (t : TypeId) :
    Except AnyRecvError Val × BufferedReceiver :=
  bufRecvVia r t .TryRecvError

/-- Model of `BufferedReceiver::try_recv_live::<T>`: as written in the source, its body
is identical to `try_recv` — it checks the buffer first (its doc comment
claims otherwise). -/
def BufferedReceiver.try_recv_live (r : BufferedReceiver) (t : TypeId) :
    Except AnyRecvError Val × BufferedReceiver :=
  bufRecvVia r t .TryRecvError

/-- Model of `BufferedReceiver::recv_nobuf::<T>`: the unbuffered receive through the
buffered handle; the buffer is neither read nor written. -/
def BufferedReceiver.recv_nobuf (r : BufferedReceiver) (t : TypeId) :
    Except AnyRecvError Val × BufferedReceiver :=
  let (res, rx') := unbufRecvVia r.rx t .RecvError
  (res, { r with rx := rx' })

/-- Model of `BufferedReceiver::recv_timeout_nobuf::<T>`. -/
def BufferedReceiver.recv_timeout_nobuf (r : BufferedReceiver) (t : TypeId)
    (_timeout : Nat) : Except AnyRecvError Val × BufferedReceiver :=
  let (res, rx') := unbufRecvVia r.rx t .RecvTimeoutError
  (res, { r with rx := rx' })

/-- Model of `BufferedReceiver::try_recv_nobuf::<T>`. -/
def BufferedReceiver.try_recv_nobuf (r : BufferedReceiver) (t : TypeId) :
    Except AnyRecvError Val × BufferedReceiver :=
  let (res, rx') := unbufRecvVia r.rx t .TryRecvError
  (res, { r with rx := rx' })

/-- Model of `BufferedReceiver::recv_buf::<T>`: buffer only; `EmptyBuffer` when T's
queue is empty; never touches the channel. -/
def BufferedReceiver.recv_buf (r : BufferedReceiver) (t : TypeId) :
    Except AnyRecvError Val × BufferedReceiver :=
  match r.buf.remove t with
  | some (v, b') => (.ok v, { r with buf := b' })
  | none => (.error .EmptyBuffer, r)

/-- Model of `BufferedReceiver::recv_until::<T>`: loop on `recv`, absorbing
`BufRecvError` as the retry signal, stopping on anything else.  In the model
the channel is a finite list, so each retry consumes one in-flight value and
the loop terminates. -/
def BufferedReceiver.recv_until (r : BufferedReceiver) (t : TypeId) :
    Except AnyRecvError Val × BufferedReceiver :=
  match h : r.recv t with
  | (.error (.BufRecvError tid), r') => r'.recv_until t
  | res => res
termination_by r.rx.length
decreasing_by
  unfold BufferedReceiver.recv bufRecvVia liveRecvVia chanPull at h
  cases hb : r.buf.remove t with
  | some p => rw [hb] at h; cases h
  | none =>
    rw [hb] at h
    cases hrx : r.rx with
    | nil => rw [hrx] at h; cases h
    | cons v rest =>
      rw [hrx] at h
      by_cases hty : v.ty = t
      · simp [hty] at h
      · simp [hty] at h
        simp [← h.2, hrx]

/-- The values of type `t` still owed to the consumer, in the order the
buffered receiver will deliver them: first `t`'s buffer queue, then the
in-flight channel values of type `t`. -/
def pendingOfType (r : BufferedReceiver) (t : TypeId) : List Val :=
  r.buf.q t ++ r.rx.filter (fun v => v.ty = t)

/-- The receiver state after producers have sent `msgs`, in order, into a
freshly constructed buffered channel. -/
def afterSends (msgs : List Val) : BufferedReceiver :=
  { buffered_channel with
    rx := msgs.foldl (fun rx v => AnySender.send v rx) buffered_channel.rx }

/-- One operation on a buffered channel: a producer send or any of the
receiver's operations, each with its requested type. -/
inductive Op where
  | send (v : Val)
  | recv (t : TypeId)
  | recvLive (t : TypeId)
  | recvTimeout (t : TypeId) (d : Nat)
  | recvTimeoutLive (t : TypeId) (d : Nat)
  | tryRecv (t : TypeId)
  | tryRecvLive (t : TypeId)
  | recvNobuf (t : TypeId)
  | recvTimeoutNobuf (t : TypeId) (d : Nat)
  | tryRecvNobuf (t : TypeId)
  | recvBuf (t : TypeId)
  | recvUntil (t : TypeId)
deriving DecidableEq, Repr

/-- The state reached after performing one operation. -/
def applyOp (r : BufferedReceiver) : Op → BufferedReceiver
  | .send v => { r with rx := AnySender.send v r.rx }
  | .recv t => (r.recv t).2
  | .recvLive t => (r.recv_live t).2
  | .recvTimeout t d => (r.recv_timeout t d).2
  | .recvTimeoutLive t d => (r.recv_timeout_live t d).2
  | .tryRecv t => (r.try_recv t).2
  | .tryRecvLive t => (r.try_recv_live t).2
  | .recvNobuf t => (r.recv_nobuf t).2
  | .recvTimeoutNobuf t d => (r.recv_timeout_nobuf t d).2
  | .tryRecvNobuf t => (r.try_recv_nobuf t).2
  | .recvBuf t => (r.recv_buf t).2
  | .recvUntil t => (r.recv_until t).2

/-- The state reached after performing a sequence of operations. -/
def runOps (r : BufferedReceiver) (ops : List Op) : BufferedReceiver :=
  ops.foldl applyOp r

/-- The requested type of an operation that takes the buffered (spillover)
receive path — the operations whose mismatch branch inserts into the buffer. -/
def bufferedRequest : Op → Option TypeId
  | .recv t => some t
  | .recvLive t => some t
  | .recvTimeout t _ => some t
  | .recvTimeoutLive t _ => some t
  | .tryRecv t => some t
  | .tryRecvLive t => some t
  | .recvUntil t => some t
  | _ => none

/-! ### Characterization lemmas for the helper bodies -/

theorem Dfb.insert_dyn_q (b : Dfb) (v : Val) (tid : TypeId) :
    (b.insert_dyn v).q tid = if tid = v.ty then b.q tid ++ [v] else b.q tid := by
  simp only [Dfb.insert_dyn, Function.update_apply]
  by_cases h : tid = v.ty
  · subst h; simp
  · simp [h]

theorem Dfb.remove_none (b : Dfb) (t : TypeId) (h : b.q t = []) :
    b.remove t = none := by
  simp [Dfb.remove, h]

theorem Dfb.remove_some (b : Dfb) (t : TypeId) (v : Val) (rest : List Val)
    (h : b.q t = v :: rest) :
    b.remove t = some (v, ⟨Function.update b.q t rest⟩) := by
  simp [Dfb.remove, h]

theorem liveRecvVia_nil (r : BufferedReceiver) (t : TypeId) (e : AnyRecvError)
    (h : r.rx = []) : liveRecvVia r t e = (.error e, r) := by
  simp [liveRecvVia, chanPull, h]

theorem liveRecvVia_match (r : BufferedReceiver) (t : TypeId) (e : AnyRecvError)
    (v : Val) (rest : List Val) (h : r.rx = v :: rest) (hty : v.ty = t) :
    liveRecvVia r t e = (.ok v, { r with rx := rest }) := by
  simp [liveRecvVia, chanPull, h, hty]

theorem liveRecvVia_mismatch (r : BufferedReceiver) (t : TypeId)
    (e : AnyRecvError) (v : Val) (rest : List Val) (h : r.rx = v :: rest)
    (hty : v.ty ≠ t) :
    liveRecvVia r t e = (.error (.BufRecvError v.ty), ⟨rest, r.buf.insert_dyn v⟩) := by
  simp [liveRecvVia, chanPull, h, hty]

theorem bufRecvVia_hit (r : BufferedReceiver) (t : TypeId) (e : AnyRecvError)
    (v : Val) (rest : List Val) (h : r.buf.q t = v :: rest) :
    bufRecvVia r t e = (.ok v, ⟨r.rx, ⟨Function.update r.buf.q t rest⟩⟩) := by
  simp [bufRecvVia, Dfb.remove_some r.buf t v rest h]

theorem bufRecvVia_miss (r : BufferedReceiver) (t : TypeId) (e : AnyRecvError)
    (h : r.buf.q t = []) :
    bufRecvVia r t e = liveRecvVia r t e := by
  simp [bufRecvVia, Dfb.remove_none r.buf t h]

/-- Exhaustive case analysis of one buffer-first receive. -/
theorem bufRecvVia_cases (r : BufferedReceiver) (t : TypeId) (e : AnyRecvError) :
    (∃ v rest, r.buf.q t = v :: rest ∧
      bufRecvVia r t e = (.ok v, ⟨r.rx, ⟨Function.update r.buf.q t rest⟩⟩)) ∨
    (r.buf.q t = [] ∧ r.rx = [] ∧ bufRecvVia r t e = (.error e, r)) ∨
    (∃ v rest, r.buf.q t = [] ∧ r.rx = v :: rest ∧ v.ty = t ∧
      bufRecvVia r t e = (.ok v, { r with rx := rest })) ∨
    (∃ v rest, r.buf.q t = [] ∧ r.rx = v :: rest ∧ v.ty ≠ t ∧
      bufRecvVia r t e = (.error (.BufRecvError v.ty), ⟨rest, r.buf.insert_dyn v⟩)) := by
  cases hb : r.buf.q t with
  | cons v rest =>
    exact Or.inl ⟨v, rest, rfl, bufRecvVia_hit r t e v rest hb⟩
  | nil =>
    cases hrx : r.rx with
    | nil =>
      refine Or.inr (Or.inl ⟨rfl, rfl, ?_⟩)
      rw [bufRecvVia_miss r t e hb, liveRecvVia_nil r t e hrx]
    | cons v rest =>
      by_cases hty : v.ty = t
      · refine Or.inr (Or.inr (Or.inl ⟨v, rest, rfl, rfl, hty, ?_⟩))
        rw [bufRecvVia_miss r t e hb, liveRecvVia_match r t e v rest hrx hty]
      · refine Or.inr (Or.inr (Or.inr ⟨v, rest, rfl, rfl, hty, ?_⟩))
        rw [bufRecvVia_miss r t e hb, liveRecvVia_mismatch r t e v rest hrx hty]

/-! ### Unfolding lemmas for the `recv_until` loop -/

theorem recv_until_of_ok (r : BufferedReceiver) (t : TypeId) (v : Val)
    (r' : BufferedReceiver) (h : r.recv t = (.ok v, r')) :
    r.recv_until t = (.ok v, r') := by
  conv_lhs => rw [BufferedReceiver.recv_until.eq_def]
  split
  · rename_i tid2 r2 heq
    rw [h] at heq
    simp at heq
  · exact h

theorem recv_until_of_retry (r : BufferedReceiver) (t tid : TypeId)
    (r' : BufferedReceiver)
    (h : r.recv t = (.error (.BufRecvError tid), r')) :
    r.recv_until t = r'.recv_until t := by
  conv_lhs => rw [BufferedReceiver.recv_until.eq_def]
  split
  · rename_i tid2 r2 heq
    rw [h] at heq
    simp only [Prod.mk.injEq, Except.error.injEq, AnyRecvError.BufRecvError.injEq] at heq
    obtain ⟨h1, h2⟩ := heq
    subst h1; subst h2; rfl
  · rename_i hne
    exact absurd h (hne tid r')

theorem recv_until_of_stop (r : BufferedReceiver) (t : TypeId) (e : AnyRecvError)
    (r' : BufferedReceiver) (h : r.recv t = (.error e, r'))
    (he : ∀ tid, e ≠ .BufRecvError tid) :
    r.recv_until t = (.error e, r') := by
  conv_lhs => rw [BufferedReceiver.recv_until.eq_def]
  split
  · rename_i tid2 r2 heq
    rw [h] at heq
    simp only [Prod.mk.injEq, Except.error.injEq] at heq
    exact absurd heq.1 (he tid2)
  · exact h

/-! ### Claim theorems -/

/-- Claim C1: the spec states that `recv_timeout_live` and `try_recv_live`
never check the buffer and always perform a physical-channel receive.  The
code contradicts this (and its own doc comments): with a value of the
requested type 1 in the buffer and a value in the channel, both variants
return the buffered value and leave the channel untouched, while `recv_live`
(shown for contrast) really does pull from the channel. -/
theorem live_timeout_try_variants_hit_buffer :
    (BufferedReceiver.try_recv_live
        ⟨[⟨2, 9⟩], ⟨fun tid => if tid = 1 then [⟨1, 5⟩] else []⟩⟩ 1).1 = .ok ⟨1, 5⟩
    ∧ (BufferedReceiver.try_recv_live
        ⟨[⟨2, 9⟩], ⟨fun tid => if tid = 1 then [⟨1, 5⟩] else []⟩⟩ 1).2.rx = [⟨2, 9⟩]
    ∧ (BufferedReceiver.recv_timeout_live
        ⟨[⟨2, 9⟩], ⟨fun tid => if tid = 1 then [⟨1, 5⟩] else []⟩⟩ 1 7).1 = .ok ⟨1, 5⟩
    ∧ (BufferedReceiver.recv_timeout_live
        ⟨[⟨2, 9⟩], ⟨fun tid => if tid = 1 then [⟨1, 5⟩] else []⟩⟩ 1 7).2.rx = [⟨2, 9⟩]
    ∧ (BufferedReceiver.recv_live
        ⟨[⟨2, 9⟩], ⟨fun tid => if tid = 1 then [⟨1, 5⟩] else []⟩⟩ 1).1
        = .error (.BufRecvError 2) := by
  refine ⟨?_, ?_, ?_, ?_, ?_⟩ <;> rfl

/-- Claim C2: `recv`, `recv_timeout` and `try_recv` check the buffer first:
when the queue for the requested type is non-empty they return its popped
front value and leave the channel untouched; only when it is empty do they
fall through to the physical channel (the live receive body with the mode's
wait-policy error). -/
theorem buffer_first_receives (r : BufferedReceiver) (t : TypeId) (d : Nat) :
    (∀ v rest, r.buf.q t = v :: rest →
      r.recv t = (.ok v, ⟨r.rx, ⟨Function.update r.buf.q t rest⟩⟩) ∧
      r.recv_timeout t d = (.ok v, ⟨r.rx, ⟨Function.update r.buf.q t rest⟩⟩) ∧
      r.try_recv t = (.ok v, ⟨r.rx, ⟨Function.update r.buf.q t rest⟩⟩)) ∧
    (r.buf.q t = [] →
      r.recv t = liveRecvVia r t .RecvError ∧
      r.recv_timeout t d = liveRecvVia r t .RecvTimeoutError ∧
      r.try_recv t = liveRecvVia r t .TryRecvError) := by
  constructor
  · intro v rest h
    exact ⟨bufRecvVia_hit r t _ v rest h, bufRecvVia_hit r t _ v rest h,
      bufRecvVia_hit r t _ v rest h⟩
  · intro h
    exact ⟨bufRecvVia_miss r t _ h, bufRecvVia_miss r t _ h, bufRecvVia_miss r t _ h⟩

/-- Witness for C2 at a concrete receiver with a buffered value of type 1. -/
theorem buffer_first_receives_witness :
    BufferedReceiver.recv ⟨[⟨2, 9⟩], ⟨fun tid => if tid = 1 then [⟨1, 5⟩] else []⟩⟩ 1
      = (.ok ⟨1, 5⟩, ⟨[⟨2, 9⟩],
          ⟨Function.update (fun tid => if tid = 1 then [⟨1, 5⟩] else []) 1 []⟩⟩) :=
  ((buffer_first_receives
      ⟨[⟨2, 9⟩], ⟨fun tid => if tid = 1 then [⟨1, 5⟩] else []⟩⟩ 1 0).1
    ⟨1, 5⟩ [] rfl).1

/-- Claim C6: sending a value of type `t` through the type-erased sender into
a fresh channel and then receiving as `t` yields that very value back. -/
theorem send_recv_roundtrip (v : Val) (t : TypeId) (h : v.ty = t) :
    AnyReceiver.recv ⟨AnySender.send v []⟩ t = (.ok v, ⟨[]⟩) := by
  simp [AnyReceiver.recv, AnySender.send, unbufRecvVia, chanPull, h]

/-- Witness for C6 at a concrete value. -/
theorem send_recv_roundtrip_witness :
    AnyReceiver.recv ⟨AnySender.send ⟨1, 5⟩ []⟩ 1 = (.ok ⟨1, 5⟩, ⟨[]⟩) :=
  send_recv_roundtrip ⟨1, 5⟩ 1 rfl

/-- Claim C7: `recv_buf` pops and returns the front of the requested type's
buffer queue if non-empty, otherwise fails with `EmptyBuffer`; in every case
the physical channel (the in-flight list) is left exactly as it was. -/
theorem recv_buf_spec (r : BufferedReceiver) (t : TypeId) :
    (∀ v rest, r.buf.q t = v :: rest →
       r.recv_buf t = (.ok v, ⟨r.rx, ⟨Function.update r.buf.q t rest⟩⟩)) ∧
    (r.buf.q t = [] → r.recv_buf t = (.error .EmptyBuffer, r)) ∧
    (r.recv_buf t).2.rx = r.rx := by
  refine ⟨?_, ?_, ?_⟩
  · intro v rest h
    simp [BufferedReceiver.recv_buf, Dfb.remove_some r.buf t v rest h]
  · intro h
    simp [BufferedReceiver.recv_buf, Dfb.remove_none r.buf t h]
  · cases hb : r.buf.q t with
    | nil => simp [BufferedReceiver.recv_buf, Dfb.remove_none r.buf t hb]
    | cons v rest => simp [BufferedReceiver.recv_buf, Dfb.remove_some r.buf t v rest hb]

/-- Witness for C7: on the fresh receiver the buffer is empty, so a
buffer-only receive fails with `EmptyBuffer` and changes nothing. -/
theorem recv_buf_spec_witness :
    buffered_channel.recv_buf 0 = (.error .EmptyBuffer, buffered_channel) :=
  (recv_buf_spec buffered_channel 0).2.1 rfl

/-- Claim C4: on a channel type mismatch, every buffered (non-bypass) receive
fails with `BufRecvError` carrying the mismatched value's own runtime type
token (`v.ty`, not the requested `t`), and moves the value to the back of its
own type's buffer queue instead of returning it. -/
theorem buffered_mismatch_parks_value (r : BufferedReceiver) (t : TypeId)
    (d : Nat) (v : Val) (rest : List Val) (hrx : r.rx = v :: rest)
    (hty : v.ty ≠ t) :
    r.recv_live t = (.error (.BufRecvError v.ty), ⟨rest, r.buf.insert_dyn v⟩) ∧
    (r.buf.q t = [] →
      r.recv t = (.error (.BufRecvError v.ty), ⟨rest, r.buf.insert_dyn v⟩) ∧
      r.recv_timeout t d = (.error (.BufRecvError v.ty), ⟨rest, r.buf.insert_dyn v⟩) ∧
      r.try_recv t = (.error (.BufRecvError v.ty), ⟨rest, r.buf.insert_dyn v⟩) ∧
      r.recv_timeout_live t d
        = (.error (.BufRecvError v.ty), ⟨rest, r.buf.insert_dyn v⟩) ∧
      r.try_recv_live t = (.error (.BufRecvError v.ty), ⟨rest, r.buf.insert_dyn v⟩)) ∧
    (r.buf.insert_dyn v).q v.ty = r.buf.q v.ty ++ [v] := by
  refine ⟨liveRecvVia_mismatch r t _ v rest hrx hty, ?_, ?_⟩
  · intro hb
    have hmiss := fun e => (bufRecvVia_miss r t e hb).trans
      (liveRecvVia_mismatch r t e v rest hrx hty)
    exact ⟨hmiss _, hmiss _, hmiss _, hmiss _, hmiss _⟩
  · simp [Dfb.insert_dyn_q]

/-- Witness for C4: type-2 value in the channel, requested type 1. -/
theorem buffered_mismatch_parks_value_witness :
    BufferedReceiver.recv_live ⟨[⟨2, 9⟩], Dfb.new⟩ 1
      = (.error (.BufRecvError 2), ⟨[], Dfb.new.insert_dyn ⟨2, 9⟩⟩) :=
  (buffered_mismatch_parks_value ⟨[⟨2, 9⟩], Dfb.new⟩ 1 0 ⟨2, 9⟩ [] rfl
    (by decide)).1

/-- Claim C8: on a type mismatch the unbuffered receiver and the three
bypass variants fail with `WrongType` carrying the original erased value, the
buffer is left exactly as it was (nothing is stored), and — if the buffer held
nothing of the value's type before — a subsequent buffer-only receive for that
type still finds nothing. -/
theorem nobuf_mismatch_returns_value (r : BufferedReceiver) (t : TypeId)
    (d : Nat) (v : Val) (rest : List Val) (hrx : r.rx = v :: rest)
    (hty : v.ty ≠ t) :
    r.recv_nobuf t = (.error (.WrongType v), { r with rx := rest }) ∧
    r.recv_timeout_nobuf t d = (.error (.WrongType v), { r with rx := rest }) ∧
    r.try_recv_nobuf t = (.error (.WrongType v), { r with rx := rest }) ∧
    AnyReceiver.recv ⟨r.rx⟩ t = (.error (.WrongType v), ⟨rest⟩) ∧
    (r.buf.q v.ty = [] →
      ((r.recv_nobuf t).2.recv_buf v.ty).1 = .error .EmptyBuffer) := by
  have hcore : ∀ e, unbufRecvVia r.rx t e = (.error (.WrongType v), rest) := by
    intro e
    simp [unbufRecvVia, chanPull, hrx, hty]
  refine ⟨?_, ?_, ?_, ?_, ?_⟩
  · simp [BufferedReceiver.recv_nobuf, hcore]
  · simp [BufferedReceiver.recv_timeout_nobuf, hcore]
  · simp [BufferedReceiver.recv_timeout_nobuf, BufferedReceiver.try_recv_nobuf, hcore]
  · simp [AnyReceiver.recv, hcore]
  · intro hb
    simp [BufferedReceiver.recv_nobuf, hcore, BufferedReceiver.recv_buf,
      Dfb.remove_none r.buf v.ty hb]

/-- Witness for C8: type-2 value in the channel, requested type 1. -/
theorem nobuf_mismatch_returns_value_witness :
    BufferedReceiver.recv_nobuf ⟨[⟨2, 9⟩], Dfb.new⟩ 1
      = (.error (.WrongType ⟨2, 9⟩), ⟨[], Dfb.new⟩) :=
  (nobuf_mismatch_returns_value ⟨[⟨2, 9⟩], Dfb.new⟩ 1 0 ⟨2, 9⟩ [] rfl
    (by decide)).1

/-- Claim C10: the bypass operations leave the buffer exactly unchanged in
every outcome, and a successful bypass receive of type `t` (even while the
buffer holds an older value of `t`) reads the channel, popping nothing from
the buffer. -/
theorem nobuf_preserves_buffer (r : BufferedReceiver) (t : TypeId) (d : Nat) :
    (r.recv_nobuf t).2.buf = r.buf ∧
    (r.recv_timeout_nobuf t d).2.buf = r.buf ∧
    (r.try_recv_nobuf t).2.buf = r.buf ∧
    (∀ v rest, r.rx = v :: rest → v.ty = t →
      (r.recv_nobuf t).1 = .ok v ∧ (r.recv_timeout_nobuf t d).1 = .ok v ∧
      (r.try_recv_nobuf t).1 = .ok v) := by
  refine ⟨rfl, rfl, rfl, ?_⟩
  intro v rest hrx hty
  have hcore : ∀ e, unbufRecvVia r.rx t e = (.ok v, rest) := by
    intro e
    simp [unbufRecvVia, chanPull, hrx, hty]
  exact ⟨by simp [BufferedReceiver.recv_nobuf, hcore],
    by simp [BufferedReceiver.recv_timeout_nobuf, hcore],
    by simp [BufferedReceiver.try_recv_nobuf, hcore]⟩

/-- Witness for C10: successful bypass receive of type 1 while the buffer
already holds an older type-1 value, which stays put. -/
theorem nobuf_preserves_buffer_witness :
    (BufferedReceiver.recv_nobuf
        ⟨[⟨1, 9⟩], ⟨fun tid => if tid = 1 then [⟨1, 5⟩] else []⟩⟩ 1).2.buf
      = Dfb.mk (fun tid => if tid = 1 then [⟨1, 5⟩] else [])
    ∧ (BufferedReceiver.recv_nobuf
        ⟨[⟨1, 9⟩], ⟨fun tid => if tid = 1 then [⟨1, 5⟩] else []⟩⟩ 1).1 = .ok ⟨1, 9⟩ :=
  ⟨(nobuf_preserves_buffer
      ⟨[⟨1, 9⟩], ⟨fun tid => if tid = 1 then [⟨1, 5⟩] else []⟩⟩ 1 0).1,
   ((nobuf_preserves_buffer
      ⟨[⟨1, 9⟩], ⟨fun tid => if tid = 1 then [⟨1, 5⟩] else []⟩⟩ 1 0).2.2.2
      ⟨1, 9⟩ [] rfl rfl).1⟩

theorem recv_eq_bufRecvVia (r : BufferedReceiver) (t : TypeId) :
    r.recv t = bufRecvVia r t .RecvError := rfl

/-- The retry loop can never surface a `BufRecvError`: that error is exactly
its retry signal. -/
theorem recv_until_never_mismatch :
    ∀ (n : Nat) (r : BufferedReceiver) (t : TypeId), r.rx.length = n →
      ∀ tid, (r.recv_until t).1 ≠ .error (.BufRecvError tid) := by
  intro n
  induction n using Nat.strong_induction_on with
  | _ n ih =>
    intro r t hn tid hcon
    rcases bufRecvVia_cases r t .RecvError with
      ⟨v, rest, hb, heq⟩ | ⟨hb, hrx, heq⟩ | ⟨v, rest, hb, hrx, hvty, heq⟩ |
      ⟨v, rest, hb, hrx, hvty, heq⟩
    · rw [recv_until_of_ok r t v _ ((recv_eq_bufRecvVia r t).trans heq)] at hcon
      simp at hcon
    · rw [recv_until_of_stop r t .RecvError r
        ((recv_eq_bufRecvVia r t).trans heq)
        (fun tid2 h => AnyRecvError.noConfusion h)] at hcon
      simp at hcon
    · rw [recv_until_of_ok r t v _ ((recv_eq_bufRecvVia r t).trans heq)] at hcon
      simp at hcon
    · rw [recv_until_of_retry r t v.ty _ ((recv_eq_bufRecvVia r t).trans heq)] at hcon
      exact ih rest.length (by simp [hrx] at hn; omega) ⟨rest, r.buf.insert_dyn v⟩
        t rfl tid hcon

/-- Claim C3: `recv_until` iterates `recv`: it retries silently exactly on
`BufRecvError`, passes any success and any other failure through unchanged,
and consequently never returns a `BufRecvError` to its caller. -/
theorem recv_until_spec (r : BufferedReceiver) (t : TypeId) :
    (∀ tid, (r.recv_until t).1 ≠ .error (.BufRecvError tid)) ∧
    (∀ v r', r.recv t = (.ok v, r') → r.recv_until t = (.ok v, r')) ∧
    (∀ e r', r.recv t = (.error e, r') → (∀ tid, e ≠ .BufRecvError tid) →
      r.recv_until t = (.error e, r')) ∧
    (∀ tid r', r.recv t = (.error (.BufRecvError tid), r') →
      r.recv_until t = r'.recv_until t) :=
  ⟨fun tid => recv_until_never_mismatch r.rx.length r t rfl tid,
   fun v r' h => recv_until_of_ok r t v r' h,
   fun e r' h he => recv_until_of_stop r t e r' h he,
   fun tid r' h => recv_until_of_retry r t tid r' h⟩

/-- Witness for C3: on the fresh (closed, empty) channel, `recv` fails with
the channel error and `recv_until` propagates it unchanged. -/
theorem recv_until_spec_witness :
    buffered_channel.recv_until 0 = (.error .RecvError, buffered_channel) :=
  (recv_until_spec buffered_channel 0).2.2.1 .RecvError buffered_channel rfl
    (fun tid h => AnyRecvError.noConfusion h)

/-! ### The pending-sequence abstraction for per-type FIFO -/

/-- A successful `recv` of type `t` delivers exactly the head of the pending
sequence of type `t`. -/
theorem recv_ok_pending (r : BufferedReceiver) (t : TypeId) (v : Val)
    (r' : BufferedReceiver) (h : r.recv t = (.ok v, r')) :
    pendingOfType r t = v :: pendingOfType r' t := by
  have h2 := (recv_eq_bufRecvVia r t).symm.trans h
  rcases bufRecvVia_cases r t .RecvError with
    ⟨w, rest, hb, heq⟩ | ⟨hb, hrx, heq⟩ | ⟨w, rest, hb, hrx, hwty, heq⟩ |
    ⟨w, rest, hb, hrx, hwty, heq⟩
  · rw [heq] at h2
    simp only [Prod.mk.injEq, Except.ok.injEq] at h2
    obtain ⟨hw, hr⟩ := h2
    subst hw; subst hr
    simp [pendingOfType, hb, Function.update_same]
  · rw [heq] at h2; simp at h2
  · rw [heq] at h2
    simp only [Prod.mk.injEq, Except.ok.injEq] at h2
    obtain ⟨hw, hr⟩ := h2
    subst hw; subst hr
    simp [pendingOfType, hb, hrx, hwty]
  · rw [heq] at h2; simp at h2

/-- A failed `recv` of type `t` leaves the pending sequence of type `t`
untouched: a mismatched value only moves from the channel to the buffer. -/
theorem recv_err_pending (r : BufferedReceiver) (t : TypeId) (e : AnyRecvError)
    (r' : BufferedReceiver) (h : r.recv t = (.error e, r')) :
    pendingOfType r t = pendingOfType r' t := by
  have h2 := (recv_eq_bufRecvVia r t).symm.trans h
  rcases bufRecvVia_cases r t .RecvError with
    ⟨w, rest, hb, heq⟩ | ⟨hb, hrx, heq⟩ | ⟨w, rest, hb, hrx, hwty, heq⟩ |
    ⟨w, rest, hb, hrx, hwty, heq⟩
  · rw [heq] at h2; simp at h2
  · rw [heq] at h2
    simp only [Prod.mk.injEq] at h2
    rw [← h2.2]
  · rw [heq] at h2; simp at h2
  · rw [heq] at h2
    simp only [Prod.mk.injEq] at h2
    rw [← h2.2]
    have hne : ¬ (t = w.ty) := fun hh => hwty hh.symm
    simp [pendingOfType, hb, hrx, hwty, Dfb.insert_dyn_q, hne]

/-- Whenever the pending sequence of type `t` is non-empty, `recv_until`
succeeds and returns exactly its head. -/
theorem recv_until_pending_ok :
    ∀ (n : Nat) (r : BufferedReceiver) (t : TypeId), r.rx.length = n →
      pendingOfType r t ≠ [] →
      ∃ v r', r.recv_until t = (.ok v, r') ∧
        pendingOfType r t = v :: pendingOfType r' t := by
  intro n
  induction n using Nat.strong_induction_on with
  | _ n ih =>
    intro r t hn hne
    rcases bufRecvVia_cases r t .RecvError with
      ⟨w, rest, hb, heq⟩ | ⟨hb, hrx, heq⟩ | ⟨w, rest, hb, hrx, hwty, heq⟩ |
      ⟨w, rest, hb, hrx, hwty, heq⟩
    · have h := (recv_eq_bufRecvVia r t).trans heq
      exact ⟨w, _, recv_until_of_ok r t w _ h, recv_ok_pending r t w _ h⟩
    · exact absurd (by simp [pendingOfType, hb, hrx]) hne
    · have h := (recv_eq_bufRecvVia r t).trans heq
      exact ⟨w, _, recv_until_of_ok r t w _ h, recv_ok_pending r t w _ h⟩
    · have h := (recv_eq_bufRecvVia r t).trans heq
      have hpend := recv_err_pending r t _ _ h
      have hlen : rest.length < n := by simp [hrx] at hn; omega
      obtain ⟨v, r2, hrun, hp⟩ := ih rest.length hlen ⟨rest, r.buf.insert_dyn w⟩ t
        rfl (by rw [← hpend]; exact hne)
      exact ⟨v, r2, (recv_until_of_retry r t w.ty _ h).trans hrun,
        hpend.trans hp⟩

/-- Sending a batch of values one by one appends them, in order, at the back
of the in-flight channel list. -/
theorem sendAll_eq (msgs l : List Val) :
    msgs.foldl (fun rx v => AnySender.send v rx) l = l ++ msgs := by
  induction msgs generalizing l with
  | nil => simp
  | cons v rest ih =>
    rw [List.foldl_cons, ih]
    simp [AnySender.send]

/-- Claim C5: if producers send `v1` then `v2` of type `t` into a fresh
buffered channel, arbitrarily interleaved with values of other types, then
receiving as `t` twice (each time retrying past mismatches, which detour the
other-typed values through the buffer) yields `v1` first and `v2` second. -/
theorem per_type_fifo (msgs : List Val) (t : TypeId) (v1 v2 : Val)
    (h : msgs.filter (fun v => v.ty = t) = [v1, v2]) :
    ∃ r1 r2, (afterSends msgs).recv_until t = (.ok v1, r1) ∧
      r1.recv_until t = (.ok v2, r2) := by
  have hrx : (afterSends msgs).rx = msgs := by
    simp [afterSends, buffered_channel, sendAll_eq]
  have hp : pendingOfType (afterSends msgs) t = [v1, v2] := by
    have hbuf : (afterSends msgs).buf.q t = [] := rfl
    simp [pendingOfType, hrx, hbuf, h]
  obtain ⟨w1, r1, hrun1, hp1⟩ := recv_until_pending_ok (afterSends msgs).rx.length
    (afterSends msgs) t rfl (by rw [hp]; simp)
  rw [hp] at hp1
  obtain ⟨hw1, hp1'⟩ := List.cons.inj hp1.symm
  obtain ⟨w2, r2, hrun2, hp2⟩ := recv_until_pending_ok r1.rx.length r1 t rfl
    (by rw [hp1']; simp)
  rw [hp1'] at hp2
  obtain ⟨hw2, hp2'⟩ := List.cons.inj hp2.symm
  exact ⟨r1, r2, hw1 ▸ hrun1, hw2 ▸ hrun2⟩

/-- Witness for C5: two type-1 values interleaved with type-2 values. -/
theorem per_type_fifo_witness :
    ∃ r1 r2,
      (afterSends [⟨2, 0⟩, ⟨1, 5⟩, ⟨2, 1⟩, ⟨1, 6⟩]).recv_until 1 = (.ok ⟨1, 5⟩, r1) ∧
      r1.recv_until 1 = (.ok ⟨1, 6⟩, r2) :=
  per_type_fifo [⟨2, 0⟩, ⟨1, 5⟩, ⟨2, 1⟩, ⟨1, 6⟩] 1 ⟨1, 5⟩ ⟨1, 6⟩ (by decide)

/-! ### Buffer growth characterization: the buffer as a spillover store -/

/-- One live channel receive either leaves every buffer queue unchanged or
appends exactly one value — to its own type's queue, a type different from
the requested one. -/
theorem liveRecvVia_buf_step (r : BufferedReceiver) (t : TypeId)
    (e : AnyRecvError) (tid : TypeId) :
    (liveRecvVia r t e).2.buf.q tid = r.buf.q tid ∨
    (∃ w, (liveRecvVia r t e).2.buf.q tid = r.buf.q tid ++ [w] ∧
      w.ty = tid ∧ w.ty ≠ t) := by
  cases hrx : r.rx with
  | nil => rw [liveRecvVia_nil r t e hrx]; exact Or.inl rfl
  | cons v rest =>
    by_cases hty : v.ty = t
    · rw [liveRecvVia_match r t e v rest hrx hty]; exact Or.inl rfl
    · rw [liveRecvVia_mismatch r t e v rest hrx hty]
      by_cases htid : tid = v.ty
      · subst htid
        exact Or.inr ⟨v, by simp [Dfb.insert_dyn_q], rfl, hty⟩
      · exact Or.inl (by simp [Dfb.insert_dyn_q, htid])

/-- One buffer-first receive leaves each queue unchanged, appends one
mismatched value to its own type's queue, or pops the front of the requested
type's queue. -/
theorem bufRecvVia_buf_step (r : BufferedReceiver) (t : TypeId)
    (e : AnyRecvError) (tid : TypeId) :
    (bufRecvVia r t e).2.buf.q tid = r.buf.q tid ∨
    (∃ w, (bufRecvVia r t e).2.buf.q tid = r.buf.q tid ++ [w] ∧
      w.ty = tid ∧ w.ty ≠ t) ∨
    (tid = t ∧ ∃ w, r.buf.q tid = w :: (bufRecvVia r t e).2.buf.q tid) := by
  cases hb : r.buf.q t with
  | cons v rest =>
    rw [bufRecvVia_hit r t e v rest hb]
    by_cases htid : tid = t
    · subst htid
      exact Or.inr (Or.inr ⟨rfl, v, by simp [Function.update_same, hb]⟩)
    · exact Or.inl (by simp [Function.update_noteq htid])
  | nil =>
    rw [bufRecvVia_miss r t e hb]
    rcases liveRecvVia_buf_step r t e tid with h | h
    · exact Or.inl h
    · exact Or.inr (Or.inl h)

/-- The retry loop only ever appends mismatched values (of types other than
the requested one) to their own queues, except possibly for one initial pop
of the requested type's queue. -/
theorem recv_until_buf_step :
    ∀ (n : Nat) (r : BufferedReceiver) (t : TypeId), r.rx.length = n →
      ∀ tid,
      (∃ ins, (r.recv_until t).2.buf.q tid = r.buf.q tid ++ ins ∧
        ∀ w ∈ ins, w.ty = tid ∧ w.ty ≠ t) ∨
      (tid = t ∧ ∃ w, r.buf.q tid = w :: (r.recv_until t).2.buf.q tid) := by
  intro n
  induction n using Nat.strong_induction_on with
  | _ n ih =>
    intro r t hn tid
    rcases bufRecvVia_cases r t .RecvError with
      ⟨v, rest, hb, heq⟩ | ⟨hb, hrx, heq⟩ | ⟨v, rest, hb, hrx, hvty, heq⟩ |
      ⟨v, rest, hb, hrx, hvty, heq⟩
    · rw [recv_until_of_ok r t v _ ((recv_eq_bufRecvVia r t).trans heq)]
      by_cases htid : tid = t
      · subst htid
        exact Or.inr ⟨rfl, v, by simp [Function.update_same, hb]⟩
      · exact Or.inl ⟨[], by simp [Function.update_noteq htid], by simp⟩
    · rw [recv_until_of_stop r t .RecvError r
        ((recv_eq_bufRecvVia r t).trans heq) (fun tid2 h => AnyRecvError.noConfusion h)]
      exact Or.inl ⟨[], by simp, by simp⟩
    · rw [recv_until_of_ok r t v _ ((recv_eq_bufRecvVia r t).trans heq)]
      exact Or.inl ⟨[], by simp, by simp⟩
    · rw [recv_until_of_retry r t v.ty _ ((recv_eq_bufRecvVia r t).trans heq)]
      have hlen : rest.length < n := by simp [hrx] at hn; omega
      rcases ih rest.length hlen ⟨rest, r.buf.insert_dyn v⟩ t rfl tid with
        ⟨ins, hins, hprops⟩ | ⟨htid, w, hw⟩
      · by_cases htid : tid = v.ty
        · subst htid
          refine Or.inl ⟨v :: ins, ?_, ?_⟩
          · rw [hins]; simp [Dfb.insert_dyn_q]
          · intro w hw
            rcases List.mem_cons.mp hw with hw | hw
            · subst hw; exact ⟨rfl, hvty⟩
            · exact hprops w hw
        · refine Or.inl ⟨ins, ?_, hprops⟩
          rw [hins]; simp [Dfb.insert_dyn_q, htid]
      · refine Or.inr ⟨htid, w, ?_⟩
        have htid2 : tid ≠ v.ty := by
          subst htid; exact fun hh => hvty hh.symm
        rw [← hw]; simp [Dfb.insert_dyn_q, htid2]

/-- Each single operation leaves each buffer queue unchanged, pops its front,
or — only for the buffered receive operations — appends values whose type
differs from the operation's requested type. -/
theorem applyOp_buf_step (r : BufferedReceiver) (op : Op) (tid : TypeId) :
    (∃ t ins, bufferedRequest op = some t ∧
      (applyOp r op).buf.q tid = r.buf.q tid ++ ins ∧
      ∀ w ∈ ins, w.ty = tid ∧ w.ty ≠ t) ∨
    (applyOp r op).buf.q tid = r.buf.q tid ∨
    (∃ w, r.buf.q tid = w :: (applyOp r op).buf.q tid) := by
  have hbufcase : ∀ (t : TypeId) (e : AnyRecvError),
      (∃ ins, (bufRecvVia r t e).2.buf.q tid = r.buf.q tid ++ ins ∧
        ∀ w ∈ ins, w.ty = tid ∧ w.ty ≠ t) ∨
      (bufRecvVia r t e).2.buf.q tid = r.buf.q tid ∨
      (∃ w, r.buf.q tid = w :: (bufRecvVia r t e).2.buf.q tid) := by
    intro t e
    rcases bufRecvVia_buf_step r t e tid with h | ⟨w, h1, h2, h3⟩ | ⟨htid, hpop⟩
    · exact Or.inr (Or.inl h)
    · refine Or.inl ⟨[w], h1, ?_⟩
      intro w' hw'
      rw [List.mem_singleton] at hw'
      subst hw'
      exact ⟨h2, h3⟩
    · exact Or.inr (Or.inr hpop)
  cases op with
  | send v => exact Or.inr (Or.inl rfl)
  | recv t =>
    rcases hbufcase t .RecvError with ⟨ins, h1, h2⟩ | h | h
    · exact Or.inl ⟨t, ins, rfl, h1, h2⟩
    · exact Or.inr (Or.inl h)
    · exact Or.inr (Or.inr h)
  | recvLive t =>
    rcases liveRecvVia_buf_step r t .RecvError tid with h | ⟨w, h1, h2, h3⟩
    · exact Or.inr (Or.inl h)
    · refine Or.inl ⟨t, [w], rfl, h1, ?_⟩
      intro w' hw'
      rw [List.mem_singleton] at hw'
      subst hw'
      exact ⟨h2, h3⟩
  | recvTimeout t d =>
    rcases hbufcase t .RecvTimeoutError with ⟨ins, h1, h2⟩ | h | h
    · exact Or.inl ⟨t, ins, rfl, h1, h2⟩
    · exact Or.inr (Or.inl h)
    · exact Or.inr (Or.inr h)
  | recvTimeoutLive t d =>
    rcases hbufcase t .RecvTimeoutError with ⟨ins, h1, h2⟩ | h | h
    · exact Or.inl ⟨t, ins, rfl, h1, h2⟩
    · exact Or.inr (Or.inl h)
    · exact Or.inr (Or.inr h)
  | tryRecv t =>
    rcases hbufcase t .TryRecvError with ⟨ins, h1, h2⟩ | h | h
    · exact Or.inl ⟨t, ins, rfl, h1, h2⟩
    · exact Or.inr (Or.inl h)
    · exact Or.inr (Or.inr h)
  | tryRecvLive t =>
    rcases hbufcase t .TryRecvError with ⟨ins, h1, h2⟩ | h | h
    · exact Or.inl ⟨t, ins, rfl, h1, h2⟩
    · exact Or.inr (Or.inl h)
    · exact Or.inr (Or.inr h)
  | recvNobuf t => exact Or.inr (Or.inl rfl)
  | recvTimeoutNobuf t d => exact Or.inr (Or.inl rfl)
  | tryRecvNobuf t => exact Or.inr (Or.inl rfl)
  | recvBuf t =>
    cases hb : r.buf.q t with
    | nil =>
      simp only [applyOp, BufferedReceiver.recv_buf, Dfb.remove_none r.buf t hb]
      exact Or.inr (Or.inl trivial)
    | cons v rest =>
      simp only [applyOp, BufferedReceiver.recv_buf, Dfb.remove_some r.buf t v rest hb]
      by_cases htid : tid = t
      · subst htid
        exact Or.inr (Or.inr ⟨v, by simp [Function.update_same, hb]⟩)
      · exact Or.inr (Or.inl (by simp [Function.update_noteq htid]))
  | recvUntil t =>
    rcases recv_until_buf_step r.rx.length r t rfl tid with ⟨ins, h1, h2⟩ | ⟨htid, h⟩
    · exact Or.inl ⟨t, ins, rfl, h1, h2⟩
    · exact Or.inr (Or.inr h)

theorem runOps_append_one (r : BufferedReceiver) (ops : List Op) (op : Op) :
    runOps r (ops ++ [op]) = applyOp (runOps r ops) op := by
  simp [runOps, List.foldl_append]

/-- Claim C9: in every state reachable from a fresh buffered channel by any
sequence of sends and receiver operations, each value held in the buffer sits
in its own type's queue and entered the buffer at some step that was a
buffered receive requesting a different type — the buffer is a spillover
store for mismatches only. -/
theorem buffer_only_spillover (ops : List Op) (tid : TypeId) (v : Val) :
    v ∈ (runOps buffered_channel ops).buf.q tid →
    tid = v.ty ∧
    ∃ pre op post t, ops = pre ++ op :: post ∧ bufferedRequest op = some t ∧
      t ≠ v.ty ∧
      ∃ ins, (applyOp (runOps buffered_channel pre) op).buf.q v.ty
          = (runOps buffered_channel pre).buf.q v.ty ++ ins ∧ v ∈ ins := by
  induction ops using List.reverseRecOn with
  | nil =>
    intro h
    simp [runOps, buffered_channel, Dfb.new] at h
  | append_singleton pre1 op ih =>
    intro h
    rw [runOps_append_one] at h
    have hextend : tid = v.ty ∧ (∃ pre op0 post t,
        pre1 = pre ++ op0 :: post ∧ bufferedRequest op0 = some t ∧ t ≠ v.ty ∧
        ∃ ins, (applyOp (runOps buffered_channel pre) op0).buf.q v.ty
            = (runOps buffered_channel pre).buf.q v.ty ++ ins ∧ v ∈ ins) →
        tid = v.ty ∧ ∃ pre op0 post t,
        pre1 ++ [op] = pre ++ op0 :: post ∧ bufferedRequest op0 = some t ∧
        t ≠ v.ty ∧
        ∃ ins, (applyOp (runOps buffered_channel pre) op0).buf.q v.ty
            = (runOps buffered_channel pre).buf.q v.ty ++ ins ∧ v ∈ ins := by
      rintro ⟨hty, pre, op0, post, t0, hsplit, hreq0, hne0, hins0⟩
      exact ⟨hty, pre, op0, post ++ [op], t0, by rw [hsplit]; simp, hreq0, hne0,
        hins0⟩
    rcases applyOp_buf_step (runOps buffered_channel pre1) op tid with
      ⟨t, ins, hreq, heq, hprops⟩ | heq | ⟨w, hw⟩
    · rw [heq, List.mem_append] at h
      rcases h with hold | hins
      · exact hextend (ih hold)
      · obtain ⟨hvt, hvnet⟩ := hprops v hins
        refine ⟨hvt.symm, pre1, op, [], t, rfl, hreq, fun hh => hvnet hh.symm,
          ins, ?_, hins⟩
        rw [hvt]
        exact heq
    · rw [heq] at h
      exact hextend (ih h)
    · have hold : v ∈ (runOps buffered_channel pre1).buf.q tid := by
        rw [hw]; exact List.mem_cons_of_mem w h
      exact hextend (ih hold)

/-- Witness for C9: after sending a type-2 value and receiving as type 1, the
type-2 value sits in the buffer, and the theorem applies to it. -/
theorem buffer_only_spillover_witness :
    (2 : TypeId) = (Val.mk 2 9).ty :=
  (buffer_only_spillover [Op.send ⟨2, 9⟩, Op.recv 1] 2 ⟨2, 9⟩ (by decide)).1
